import Mathlib

/-!
# cloudinary.js: the size-constrained compressor and the /compress-upload handler

A shallow embedding of `src/cloudinary.js`.

* The three external collaborators (axios.get, sharp(..).jpeg(..).toBuffer(),
  cloudinary.uploader.upload_stream) are parameters of the model.  Each either
  yields a value or throws; a thrown JavaScript value has type `ε`.  Within one
  run each collaborator is called at most once with the same arguments, so a
  function of the arguments describes every behaviour a run can observe.
* Every call of a collaborator and every console line is recorded, in program
  order, in a trace of `Event`s, so that "which calls were made, and in which
  order" is a property of the value a run returns.
* `Math.round(compressed.length / 1024)` is computed over the rationals: a
  buffer length is an integer below 2^53 and 1024 is a power of two, so the
  double division is exact, and Math.round rounds to the nearest integer with
  halves going up.
* `quality` is a natural number: it starts at 90 and 10 is subtracted only
  while it is above 10.  `targetSizeKB` is an integer number of KB; the only
  call site passes 250, so the default value of the parameter is never used.
  The variable `outputBuffer` of line 32 is never read and is left out.
* `req.body` is undefined when no body was parsed (the express version is not
  pinned, and express 5 leaves it undefined then), else the object
  express.json() produced; the handler reads only its property `imageUrl`.
  Destructuring an undefined body at line 61 throws inside the try block.
  The upload result is an object with a string `secure_url`.
-/

namespace Cloudinary

/-! ## The program -/

/-- A Node.js Buffer: a sequence of bytes. -/
abbrev Buffer := List (Fin 256)

/-- A value of a parsed JSON request body, as far as the handler inspects it.
`undefined` is what reading an absent property gives.  `number` carries the
integer-valued numbers; `object` stands for any array or object (all of them
are truthy). -/
inductive JsValue where
  | undefined
  | null
  | bool (b : Bool)
  | number (n : Int)
  | string (s : String)
  | object
  deriving DecidableEq, Repr

/-- JavaScript ToBoolean, which `!imageUrl` negates. -/
def JsValue.toBoolean : JsValue → Bool
  | .undefined => false
  | .null => false
  | .bool b => b
  | .number n => n != 0
  | .string s => s != ""
  | .object => true

/-- The result object the upload callback receives; only `secure_url` is read. -/
structure UploadResult where
  secure_url : String
  deriving DecidableEq, Repr

/-- A value thrown inside the try block of the handler: the TypeError of line 61,
raised when `req.body` is undefined and its property imageUrl is destructured, or
the value a collaborator rejected with. -/
inductive Thrown (ε : Type) where
  | typeError
  | rejected (err : ε)
  deriving DecidableEq, Repr

/-- The console lines of the program, with the values they interpolate. -/
inductive LogLine (ε : Type) where
  /-- Line 42. -/
  | compressionSuccessful (quality : Nat) (sizeKB : Int)
  /-- Line 51. -/
  | couldNotReach (targetSizeKB : Int) (quality : Nat)
  /-- Line 66. -/
  | fetchingImageFrom (imageUrl : JsValue)
  /-- Line 71. -/
  | originalImageSize (kb : Int)
  /-- Line 75. -/
  | compressedSize (kb : Int)
  /-- Line 96. -/
  | cloudinaryUrl (url : String)
  /-- Line 103, console.error. -/
  | errorInCompressUpload (err : Thrown ε)
  deriving DecidableEq, Repr

/-- The observable actions of a run, in program order. -/
inductive Event (ε : Type) where
  | log (line : LogLine ε)
  /-- The call axios.get(imageUrl, ..) of line 68. -/
  | fetch (imageUrl : JsValue)
  /-- The call sharp(buffer).jpeg(quality, force).toBuffer() of lines 36 and 52. -/
  | encode (buffer : Buffer) (quality : Nat)
  /-- The call upload_stream(folder, callback).end(data) of lines 81-89. -/
  | upload (folder : String) (data : Buffer)
  deriving DecidableEq, Repr

/-- The encoder: sharp(buffer).jpeg(quality).toBuffer(), resolving to bytes or rejecting. -/
abbrev Encoder (ε : Type) := Buffer → Nat → Except ε Buffer

/-- Math.round on an exact quotient: the nearest integer, halves going up. -/
def Math.round (x : ℚ) : Int := ⌊x + 1 / 2⌋

/-- The expression Math.round(b.length / 1024) of lines 39, 71 and 75. -/
def sizeKB (b : Buffer) : Int := Math.round ((b.length : ℚ) / 1024)

/-- How the while loop of lines 35-48 is left: by the return of line 43, by a
rejected await of line 36, or by its condition becoming false. -/
inductive LoopExit (ε : Type) where
  | returned (compressed : Buffer)
  | threw (err : ε)
  | conditionFalse (quality : Nat)
  deriving DecidableEq, Repr

/-- The while loop of lines 35-48, entered with the given value of `quality`. -/
def whileLoop {ε : Type} (enc : Encoder ε) (buffer : Buffer) (targetSizeKB : Int)
    (quality : Nat) : List (Event ε) × LoopExit ε :=
  if 10 < quality then
    match enc buffer quality with
    | .error err => ([.encode buffer quality], .threw err)
    | .ok compressed =>
      if sizeKB compressed ≤ targetSizeKB then
        ([.encode buffer quality, .log (.compressionSuccessful quality (sizeKB compressed))],
          .returned compressed)
      else
        let rest := whileLoop enc buffer targetSizeKB (quality - 10)
        (.encode buffer quality :: rest.1, rest.2)
  else
    ([], .conditionFalse quality)
termination_by quality
decreasing_by omega

/-- The function compressImageToUnder of lines 30-56: the trace of the call and
what its promise settles to. -/
def compressImageToUnder {ε : Type} (enc : Encoder ε) (buffer : Buffer)
    (targetSizeKB : Int) : List (Event ε) × Except ε Buffer :=
  match whileLoop enc buffer targetSizeKB 90 with
  | (t, .returned compressed) => (t, .ok compressed)
  | (t, .threw err) => (t, .error err)
  | (t, .conditionFalse quality) =>
    match enc buffer quality with
    | .error err =>
      (t ++ [.log (.couldNotReach targetSizeKB quality), .encode buffer quality], .error err)
    | .ok finalTry =>
      (t ++ [.log (.couldNotReach targetSizeKB quality), .encode buffer quality], .ok finalTry)

/-- The JSON body of a response. -/
inductive ResponseBody where
  | error (error : String)
  | success (success : Bool) (cloudinaryUrl : String) (note : String)
  deriving DecidableEq, Repr

/-- What res.status(..).json(..) sends. -/
structure Response where
  status : Nat
  body : ResponseBody
  deriving DecidableEq, Repr

/-- The fetch collaborator: axios.get with responseType arraybuffer, then Buffer.from. -/
abbrev Fetcher (ε : Type) := JsValue → Except ε Buffer

/-- The upload collaborator: the promise around upload_stream, given the folder and the bytes. -/
abbrev Uploader (ε : Type) := String → Buffer → Except ε UploadResult

/-- The value of `req.body` when the handler runs: undefined when no body was
parsed, else the object (or array) express.json() produced, given by its properties. -/
inductive RequestBody where
  | undefined
  | object (properties : List (String × JsValue))
  deriving DecidableEq, Repr

/-- Reading a property of an object: undefined when the object has no such property. -/
def getProperty (properties : List (String × JsValue)) (name : String) : JsValue :=
  (properties.lookup name).getD .undefined

/-- The try block of lines 60-101: its trace, and the response it sends or the
value it throws. -/
def tryBlock {ε : Type} (fetch : Fetcher ε) (enc : Encoder ε) (upload : Uploader ε)
    (body : RequestBody) : List (Event ε) × Except (Thrown ε) Response :=
  match body with
  | .undefined => ([], .error .typeError)
  | .object properties =>
    let imageUrl := getProperty properties "imageUrl"
    if !imageUrl.toBoolean then
      ([], .ok ⟨400, .error "Missing 'imageUrl' field"⟩)
    else
      let t1 : List (Event ε) := [.log (.fetchingImageFrom imageUrl), .fetch imageUrl]
      match fetch imageUrl with
      | .error err => (t1, .error (.rejected err))
      | .ok originalBuffer =>
        let t2 := t1 ++ [.log (.originalImageSize (sizeKB originalBuffer))]
        match compressImageToUnder enc originalBuffer 250 with
        | (tc, .error err) => (t2 ++ tc, .error (.rejected err))
        | (tc, .ok compressedBuffer) =>
          let t3 := t2 ++ tc ++ [.log (.compressedSize (sizeKB compressedBuffer)),
            .upload "compressed-images" compressedBuffer]
          match upload "compressed-images" compressedBuffer with
          | .error err => (t3, .error (.rejected err))
          | .ok uploadResult =>
            (t3 ++ [.log (.cloudinaryUrl uploadResult.secure_url)],
              .ok ⟨200, .success true uploadResult.secure_url
                "Image compressed & uploaded successfully"⟩)

/-- The handler of POST /compress-upload (lines 59-106): the try block, and the
catch clause that logs the thrown value and answers 500. -/
def compressUploadHandler {ε : Type} (fetch : Fetcher ε) (enc : Encoder ε)
    (upload : Uploader ε) (body : RequestBody) : List (Event ε) × Response :=
  match tryBlock fetch enc upload body with
  | (t, .ok res) => (t, res)
  | (t, .error err) =>
    (t ++ [.log (.errorInCompressUpload err)],
      ⟨500, .error "Failed to compress or upload image"⟩)

/-- The encoder calls of a trace, in order. -/
def encodeCalls {ε : Type} : List (Event ε) → List (Buffer × Nat)
  | [] => []
  | .encode b q :: t => (b, q) :: encodeCalls t
  | _ :: t => encodeCalls t

/-! ## Vocabulary of the statements and sample collaborators -/

/-- The imageUrl field of the request body: the property of the body object, and
undefined when there is no body object to read it from. -/
def RequestBody.imageUrl : RequestBody → JsValue
  | .undefined => .undefined
  | .object properties => getProperty properties "imageUrl"

/-- The qualities at which the body of the while loop can run, in the order the loop
tries them: 90 down to 20 in steps of 10. -/
def searchSchedule : List Nat := [90, 80, 70, 60, 50, 40, 30, 20]

/-- The encoder produced an output at this quality and the test of line 41 failed on it. -/
def rejectedAt {ε : Type} (enc : Encoder ε) (buffer : Buffer) (T : Int) (q : Nat) : Prop :=
  ∃ c, enc buffer q = .ok c ∧ ¬ sizeKB c ≤ T

/-- The search schedule followed by the quality of the final try of lines 52-54. -/
def fullSchedule : List Nat := searchSchedule ++ [10]

/-- An encoder that never rejects: it resolves to `f buffer quality`. -/
def totalEncoder (ε : Type) (f : Buffer → Nat → Buffer) : Encoder ε :=
  fun b q => .ok (f b q)

/-- A sample encoder output: `bytesPerStep * quality` zero bytes, so that lower
qualities give proportionally smaller outputs. -/
def sampleEncoder (bytesPerStep : Nat) (_ : Buffer) (quality : Nat) : Buffer :=
  List.replicate (bytesPerStep * quality) 0

/-- A sample encoder that rejects at quality 70 and otherwise behaves as `sampleEncoder 4000`. -/
def failingEncoder : Encoder String :=
  fun b q => if q = 70 then .error "Input buffer contains unsupported image format"
    else .ok (sampleEncoder 4000 b q)

/-- The stage of the request an event belongs to: 0 for the fetch, 1 for an
encoder call, 2 for the upload; console lines belong to no stage. -/
def Event.stage {ε : Type} : Event ε → Option Nat
  | .fetch _ => some 0
  | .encode _ _ => some 1
  | .upload _ _ => some 2
  | .log _ => none

/-- The reading of a missing or empty field as absent, null or the empty string. -/
def missingOrEmpty (v : JsValue) : Prop :=
  v = .undefined ∨ v = .null ∨ v = .string ""

/-- One of the three stages of a request fails: the fetch, or the compressor on the
fetched bytes, or the upload of the compressor's result. -/
def stageFails {ε : Type} (fetch : Fetcher ε) (enc : Encoder ε) (upload : Uploader ε)
    (body : RequestBody) : Prop :=
  (∃ e, fetch body.imageUrl = .error e) ∨
  (∃ buf e, fetch body.imageUrl = .ok buf ∧ (compressImageToUnder enc buf 250).2 = .error e) ∨
  (∃ buf out e, fetch body.imageUrl = .ok buf ∧
    (compressImageToUnder enc buf 250).2 = .ok out ∧
    upload "compressed-images" out = .error e)

/-- A sample request body with a string imageUrl. -/
def sampleBody : RequestBody :=
  .object [("imageUrl", .string "https://example.com/photo.png")]

/-! ## Arithmetic of the size test and unfolding of the loop -/

theorem sizeKB_le_iff (b : Buffer) (T : Int) :
    sizeKB b ≤ T ↔ (b.length : Int) < 1024 * T + 512 := by
  unfold sizeKB Math.round
  rw [Int.floor_le_iff]
  constructor
  · intro h
    have h2 : ((b.length : Int) : ℚ) < ((1024 * T + 512 : Int) : ℚ) := by
      push_cast
      linarith
    exact_mod_cast h2
  · intro h
    have h2 : ((b.length : Int) : ℚ) < ((1024 * T + 512 : Int) : ℚ) := by exact_mod_cast h
    push_cast at h2
    linarith

theorem sizeKB_eq (b : Buffer) : sizeKB b = ((b.length + 512) / 1024 : Nat) := by
  apply le_antisymm
  · rw [sizeKB_le_iff]; push_cast; omega
  · by_contra h
    push_neg at h
    have h1 : sizeKB b ≤ ((b.length + 512) / 1024 : Nat) - 1 := by omega
    rw [sizeKB_le_iff] at h1
    push_cast at h1
    omega

theorem whileLoop_exit {ε : Type} (enc : Encoder ε) (buffer : Buffer) (T : Int) (q : Nat)
    (hq : q ≤ 10) : whileLoop enc buffer T q = ([], .conditionFalse q) := by
  rw [whileLoop, if_neg (by omega)]

theorem whileLoop_threw {ε : Type} (enc : Encoder ε) (buffer : Buffer) (T : Int) (q : Nat)
    (hq : 10 < q) (err : ε) (h : enc buffer q = .error err) :
    whileLoop enc buffer T q = ([.encode buffer q], .threw err) := by
  rw [whileLoop, if_pos hq, h]

theorem whileLoop_accept {ε : Type} (enc : Encoder ε) (buffer : Buffer) (T : Int) (q : Nat)
    (hq : 10 < q) (c : Buffer) (h : enc buffer q = .ok c) (hc : sizeKB c ≤ T) :
    whileLoop enc buffer T q =
      ([.encode buffer q, .log (.compressionSuccessful q (sizeKB c))], .returned c) := by
  rw [whileLoop, if_pos hq, h]
  simp only [if_pos hc]

theorem whileLoop_reject {ε : Type} (enc : Encoder ε) (buffer : Buffer) (T : Int) (q : Nat)
    (hq : 10 < q) (c : Buffer) (h : enc buffer q = .ok c) (hc : ¬ sizeKB c ≤ T) :
    whileLoop enc buffer T q =
      (.encode buffer q :: (whileLoop enc buffer T (q - 10)).1,
        (whileLoop enc buffer T (q - 10)).2) := by
  rw [whileLoop, if_pos hq, h]
  simp only [if_neg hc]

theorem whileLoop_rejected {ε : Type} (enc : Encoder ε) (buffer : Buffer) (T : Int) (q : Nat)
    (hq : 10 < q) (h : rejectedAt enc buffer T q) :
    whileLoop enc buffer T q =
      (.encode buffer q :: (whileLoop enc buffer T (q - 10)).1,
        (whileLoop enc buffer T (q - 10)).2) := by
  obtain ⟨c, hc, hr⟩ := h
  exact whileLoop_reject enc buffer T q hq c hc hr

theorem whileLoop_rejected_run {ε : Type} (enc : Encoder ε) (buffer : Buffer) (T : Int) (q : Nat)
    (hq : q ∈ searchSchedule ∨ q = 10)
    (hrej : ∀ q' ∈ searchSchedule, q < q' → rejectedAt enc buffer T q') :
    whileLoop enc buffer T 90 =
      ((searchSchedule.filter (fun q' => q < q')).map (fun q' => Event.encode buffer q') ++
        (whileLoop enc buffer T q).1, (whileLoop enc buffer T q).2) := by
  simp only [searchSchedule, List.mem_cons, List.mem_singleton, List.not_mem_nil, or_false] at hq
  rcases hq with (rfl | rfl | rfl | rfl | rfl | rfl | rfl | rfl) | rfl <;>
    simp [whileLoop_rejected, hrej, searchSchedule]

theorem first_stop (P : Nat → Prop) (l : List Nat) (hl : l.Pairwise (fun a b => b < a)) :
    (∀ q ∈ l, P q) ∨ ∃ q ∈ l, ¬ P q ∧ ∀ q' ∈ l, q < q' → P q' := by
  induction l with
  | nil => left; simp
  | cons a l ih =>
    rw [List.pairwise_cons] at hl
    by_cases ha : P a
    · rcases ih hl.2 with h | ⟨q, hq, hnq, hh⟩
      · left
        intro q hq
        rcases List.mem_cons.1 hq with rfl | hq
        · exact ha
        · exact h q hq
      · right
        refine ⟨q, List.mem_cons_of_mem _ hq, hnq, ?_⟩
        intro q' hq' hlt
        rcases List.mem_cons.1 hq' with rfl | hq'
        · exact ha
        · exact hh q' hq' hlt
    · right
      refine ⟨a, List.mem_cons_self _ _, ha, ?_⟩
      intro q' hq' hlt
      rcases List.mem_cons.1 hq' with rfl | hq'
      · omega
      · have := hl.1 q' hq'
        omega

theorem encodeCalls_append {ε : Type} (s t : List (Event ε)) :
    encodeCalls (s ++ t) = encodeCalls s ++ encodeCalls t := by
  induction s with
  | nil => rfl
  | cons e s ih => cases e <;> simp [encodeCalls, ih]

theorem encodeCalls_map_encode {ε : Type} (buffer : Buffer) (l : List Nat) :
    encodeCalls (l.map (fun q => (Event.encode buffer q : Event ε))) =
      l.map (fun q => (buffer, q)) := by
  induction l with
  | nil => rfl
  | cons q l ih => simp [encodeCalls, ih]

theorem loop_all_rejected {ε : Type} (enc : Encoder ε) (buffer : Buffer) (T : Int)
    (hrej : ∀ q ∈ searchSchedule, rejectedAt enc buffer T q) :
    whileLoop enc buffer T 90 =
      (searchSchedule.map (fun q => Event.encode buffer q), .conditionFalse 10) := by
  have h := whileLoop_rejected_run enc buffer T 10 (Or.inr rfl) (fun q' hq' _ => hrej q' hq')
  rw [whileLoop_exit enc buffer T 10 (le_refl _)] at h
  have hf : searchSchedule.filter (fun q' => decide (10 < q')) = searchSchedule := by decide
  rw [hf] at h
  simpa using h

theorem loop_stop_at {ε : Type} (enc : Encoder ε) (buffer : Buffer) (T : Int) (q : Nat)
    (hq : q ∈ searchSchedule) (hstop : ¬ rejectedAt enc buffer T q)
    (hrej : ∀ q' ∈ searchSchedule, q < q' → rejectedAt enc buffer T q') :
    whileLoop enc buffer T 90 =
      match enc buffer q with
      | .error err =>
        ((searchSchedule.filter (fun q' => q < q')).map (fun q' => Event.encode buffer q') ++
          [.encode buffer q], .threw err)
      | .ok c =>
        ((searchSchedule.filter (fun q' => q < q')).map (fun q' => Event.encode buffer q') ++
          [.encode buffer q, .log (.compressionSuccessful q (sizeKB c))], .returned c) := by
  have h := whileLoop_rejected_run enc buffer T q (Or.inl hq) hrej
  have h10 : 10 < q := by
    simp only [searchSchedule, List.mem_cons, List.mem_singleton, List.not_mem_nil,
      or_false] at hq
    omega
  rw [h]
  cases he : enc buffer q with
  | error err => rw [whileLoop_threw enc buffer T q h10 err he]
  | ok c =>
    have hc : sizeKB c ≤ T := by
      by_contra hc
      exact hstop ⟨c, he, hc⟩
    rw [whileLoop_accept enc buffer T q h10 c he hc]

theorem compress_all_rejected {ε : Type} (enc : Encoder ε) (buffer : Buffer) (T : Int)
    (hrej : ∀ q ∈ searchSchedule, rejectedAt enc buffer T q) :
    compressImageToUnder enc buffer T =
      (searchSchedule.map (fun q => Event.encode buffer q) ++
        [.log (.couldNotReach T 10), .encode buffer 10], enc buffer 10) := by
  unfold compressImageToUnder
  rw [loop_all_rejected enc buffer T hrej]
  cases he : enc buffer 10 <;> simp [he]

theorem compress_stop_at {ε : Type} (enc : Encoder ε) (buffer : Buffer) (T : Int) (q : Nat)
    (hq : q ∈ searchSchedule) (hstop : ¬ rejectedAt enc buffer T q)
    (hrej : ∀ q' ∈ searchSchedule, q < q' → rejectedAt enc buffer T q') :
    compressImageToUnder enc buffer T =
      match enc buffer q with
      | .error err =>
        ((searchSchedule.filter (fun q' => q < q')).map (fun q' => Event.encode buffer q') ++
          [.encode buffer q], .error err)
      | .ok c =>
        ((searchSchedule.filter (fun q' => q < q')).map (fun q' => Event.encode buffer q') ++
          [.encode buffer q, .log (.compressionSuccessful q (sizeKB c))], .ok c) := by
  unfold compressImageToUnder
  rw [loop_stop_at enc buffer T q hq hstop hrej]
  cases he : enc buffer q <;> simp

theorem searchSchedule_pairwise : searchSchedule.Pairwise (fun a b => b < a) := by
  decide

theorem schedule_upto (q : Nat) (hq : q ∈ searchSchedule) :
    searchSchedule.filter (fun q' => q < q') ++ [q] =
      searchSchedule.filter (fun q' => q ≤ q') := by
  revert q
  decide

theorem schedule_range (q : Nat) (hq : q ∈ searchSchedule) :
    searchSchedule.filter (fun q' => q ≤ q') =
      (List.range ((90 - q) / 10 + 1)).map (fun i => 90 - 10 * i) := by
  revert q
  decide

theorem calls_stop_at {ε : Type} (enc : Encoder ε) (buffer : Buffer) (T : Int) (q : Nat)
    (hq : q ∈ searchSchedule) (hstop : ¬ rejectedAt enc buffer T q)
    (hrej : ∀ q' ∈ searchSchedule, q < q' → rejectedAt enc buffer T q') :
    encodeCalls (compressImageToUnder enc buffer T).1 =
      (searchSchedule.filter (fun q' => q ≤ q')).map (fun q' => (buffer, q')) := by
  rw [compress_stop_at enc buffer T q hq hstop hrej, ← schedule_upto q hq]
  cases enc buffer q <;>
    simp [encodeCalls_append, encodeCalls_map_encode, encodeCalls]

theorem calls_all_rejected {ε : Type} (enc : Encoder ε) (buffer : Buffer) (T : Int)
    (hrej : ∀ q ∈ searchSchedule, rejectedAt enc buffer T q) :
    encodeCalls (compressImageToUnder enc buffer T).1 =
      fullSchedule.map (fun q' => (buffer, q')) := by
  rw [compress_all_rejected enc buffer T hrej]
  simp [encodeCalls_append, encodeCalls_map_encode, encodeCalls, fullSchedule, searchSchedule]

theorem whileLoop_body_quality {ε : Type} (enc : Encoder ε) (buffer : Buffer) (T : Int)
    (q0 : Nat) : ∀ b q, (b, q) ∈ encodeCalls (whileLoop enc buffer T q0).1 →
      b = buffer ∧ 10 < q ∧ q ≤ q0 := by
  induction q0 using Nat.strong_induction_on with
  | _ q0 ih =>
    intro b q hmem
    by_cases h10 : 10 < q0
    · cases he : enc buffer q0 with
      | error err =>
        rw [whileLoop_threw enc buffer T q0 h10 err he] at hmem
        simp [encodeCalls] at hmem
        obtain ⟨rfl, rfl⟩ := hmem
        exact ⟨rfl, h10, le_refl _⟩
      | ok c =>
        by_cases hc : sizeKB c ≤ T
        · rw [whileLoop_accept enc buffer T q0 h10 c he hc] at hmem
          simp [encodeCalls] at hmem
          obtain ⟨rfl, rfl⟩ := hmem
          exact ⟨rfl, h10, le_refl _⟩
        · rw [whileLoop_reject enc buffer T q0 h10 c he hc] at hmem
          simp only [encodeCalls, List.mem_cons, Prod.mk.injEq] at hmem
          rcases hmem with ⟨rfl, rfl⟩ | hmem
          · exact ⟨rfl, h10, le_refl _⟩
          · have h := ih (q0 - 10) (by omega) b q hmem
            exact ⟨h.1, h.2.1, by omega⟩
    · rw [whileLoop_exit enc buffer T q0 (by omega)] at hmem
      simp [encodeCalls] at hmem

theorem rejectedAt_total (ε : Type) (f : Buffer → Nat → Buffer) (buffer : Buffer) (T : Int)
    (q : Nat) : rejectedAt (totalEncoder ε f) buffer T q ↔ ¬ sizeKB (f buffer q) ≤ T := by
  unfold rejectedAt totalEncoder
  constructor
  · rintro ⟨c, hc, hr⟩
    cases hc
    exact hr
  · intro h
    exact ⟨_, rfl, h⟩

theorem schedule_getLast (q : Nat) (hq : q ∈ searchSchedule) :
    (searchSchedule.filter (fun q' => q ≤ q')).getLast? = some q := by
  revert q
  decide

theorem getLast_map_pair (buffer : Buffer) (l : List Nat) (q : Nat)
    (h : l.getLast? = some q) :
    (l.map (fun q' => (buffer, q'))).getLast? = some (buffer, q) := by
  rw [List.getLast?_map, h]
  rfl

theorem sampleEncoder_size (k : Nat) (buffer : Buffer) (q : Nat) (T : Int) :
    sizeKB (sampleEncoder k buffer q) ≤ T ↔ (k * q : Int) < 1024 * T + 512 := by
  rw [sizeKB_le_iff]
  simp [sampleEncoder]

theorem ten_not_stop_call (buffer : Buffer) (q : Nat) :
    (buffer, 10) ∉ (searchSchedule.filter (fun q' => q ≤ q')).map (fun q' => (buffer, q')) := by
  intro h
  rw [List.mem_map] at h
  obtain ⟨a, ha, hab⟩ := h
  have h10 : a = 10 := by
    simpa using congrArg Prod.snd hab
  subst h10
  have hmem := (List.mem_filter.1 ha).1
  revert hmem
  decide

theorem compress_of_returned {ε : Type} (enc : Encoder ε) (buffer : Buffer) (T : Int)
    (t : List (Event ε)) (c : Buffer) (h : whileLoop enc buffer T 90 = (t, .returned c)) :
    compressImageToUnder enc buffer T = (t, .ok c) := by
  unfold compressImageToUnder
  rw [h]

theorem handler_undefined_body {ε : Type} (fetch : Fetcher ε) (enc : Encoder ε)
    (upload : Uploader ε) :
    compressUploadHandler fetch enc upload .undefined =
      ([.log (.errorInCompressUpload .typeError)],
        ⟨500, .error "Failed to compress or upload image"⟩) := rfl

theorem handler_cases {ε : Type} (fetch : Fetcher ε) (enc : Encoder ε) (upload : Uploader ε)
    (body : RequestBody) :
    (body = .undefined ∧ body.imageUrl.toBoolean = false ∧
      compressUploadHandler fetch enc upload body =
        ([.log (.errorInCompressUpload .typeError)],
          ⟨500, .error "Failed to compress or upload image"⟩)) ∨
    (body ≠ .undefined ∧ body.imageUrl.toBoolean = false ∧
      compressUploadHandler fetch enc upload body =
        ([], ⟨400, .error "Missing 'imageUrl' field"⟩)) ∨
    (body.imageUrl.toBoolean = true ∧ ∃ e, fetch body.imageUrl = .error e ∧
      compressUploadHandler fetch enc upload body =
        ([.log (.fetchingImageFrom body.imageUrl), .fetch body.imageUrl,
          .log (.errorInCompressUpload (.rejected e))],
          ⟨500, .error "Failed to compress or upload image"⟩)) ∨
    (body.imageUrl.toBoolean = true ∧ ∃ buf tc e, fetch body.imageUrl = .ok buf ∧
      compressImageToUnder enc buf 250 = (tc, .error e) ∧
      compressUploadHandler fetch enc upload body =
        ([.log (.fetchingImageFrom body.imageUrl), .fetch body.imageUrl,
          .log (.originalImageSize (sizeKB buf))] ++ tc ++
          [.log (.errorInCompressUpload (.rejected e))],
          ⟨500, .error "Failed to compress or upload image"⟩)) ∨
    (body.imageUrl.toBoolean = true ∧ ∃ buf tc out e, fetch body.imageUrl = .ok buf ∧
      compressImageToUnder enc buf 250 = (tc, .ok out) ∧
      upload "compressed-images" out = .error e ∧
      compressUploadHandler fetch enc upload body =
        ([.log (.fetchingImageFrom body.imageUrl), .fetch body.imageUrl,
          .log (.originalImageSize (sizeKB buf))] ++ tc ++
          [.log (.compressedSize (sizeKB out)), .upload "compressed-images" out,
            .log (.errorInCompressUpload (.rejected e))],
          ⟨500, .error "Failed to compress or upload image"⟩)) ∨
    (body.imageUrl.toBoolean = true ∧ ∃ buf tc out res, fetch body.imageUrl = .ok buf ∧
      compressImageToUnder enc buf 250 = (tc, .ok out) ∧
      upload "compressed-images" out = .ok res ∧
      compressUploadHandler fetch enc upload body =
        ([.log (.fetchingImageFrom body.imageUrl), .fetch body.imageUrl,
          .log (.originalImageSize (sizeKB buf))] ++ tc ++
          [.log (.compressedSize (sizeKB out)), .upload "compressed-images" out,
            .log (.cloudinaryUrl res.secure_url)],
          ⟨200, .success true res.secure_url "Image compressed & uploaded successfully"⟩)) := by
  cases body with
  | undefined => exact Or.inl ⟨rfl, rfl, rfl⟩
  | object properties =>
    right
    simp only [RequestBody.imageUrl]
    cases hb : (getProperty properties "imageUrl").toBoolean with
    | false =>
      left
      refine ⟨by simp, rfl, ?_⟩
      simp [compressUploadHandler, tryBlock, hb]
    | true =>
      right
      cases hf : fetch (getProperty properties "imageUrl") with
      | error e =>
        left
        refine ⟨rfl, e, rfl, ?_⟩
        simp [compressUploadHandler, tryBlock, hb, hf]
      | ok buf =>
        right
        rcases hc : compressImageToUnder enc buf 250 with ⟨tc, rc⟩
        cases rc with
        | error e =>
          left
          refine ⟨rfl, buf, tc, e, rfl, hc, ?_⟩
          simp [compressUploadHandler, tryBlock, hb, hf, hc]
        | ok out =>
          right
          cases hu : upload "compressed-images" out with
          | error e =>
            left
            refine ⟨rfl, buf, tc, out, e, rfl, hc, hu, ?_⟩
            simp [compressUploadHandler, tryBlock, hb, hf, hc, hu]
          | ok res =>
            right
            refine ⟨rfl, buf, tc, out, res, rfl, hc, hu, ?_⟩
            simp [compressUploadHandler, tryBlock, hb, hf, hc, hu]

theorem whileLoop_trace_stage {ε : Type} (enc : Encoder ε) (buffer : Buffer) (T : Int)
    (q0 : Nat) : ∀ ev ∈ (whileLoop enc buffer T q0).1, ev.stage = some 1 ∨ ev.stage = none := by
  induction q0 using Nat.strong_induction_on with
  | _ q0 ih =>
    intro ev hmem
    by_cases h10 : 10 < q0
    · cases he : enc buffer q0 with
      | error err =>
        rw [whileLoop_threw enc buffer T q0 h10 err he] at hmem
        simp at hmem
        subst hmem
        exact Or.inl rfl
      | ok c =>
        by_cases hc : sizeKB c ≤ T
        · rw [whileLoop_accept enc buffer T q0 h10 c he hc] at hmem
          simp at hmem
          rcases hmem with rfl | rfl
          · exact Or.inl rfl
          · exact Or.inr rfl
        · rw [whileLoop_reject enc buffer T q0 h10 c he hc] at hmem
          rcases List.mem_cons.1 hmem with rfl | hmem
          · exact Or.inl rfl
          · exact ih (q0 - 10) (by omega) ev hmem
    · rw [whileLoop_exit enc buffer T q0 (by omega)] at hmem
      simp at hmem

theorem compress_trace_stage {ε : Type} (enc : Encoder ε) (buffer : Buffer) (T : Int) :
    ∀ ev ∈ (compressImageToUnder enc buffer T).1, ev.stage = some 1 ∨ ev.stage = none := by
  have hloop := whileLoop_trace_stage enc buffer T 90
  unfold compressImageToUnder
  rcases hw : whileLoop enc buffer T 90 with ⟨t, r⟩
  rw [hw] at hloop
  cases r with
  | returned c => exact hloop
  | threw e => exact hloop
  | conditionFalse q =>
    intro ev hmem
    have hmem2 : ev ∈ t ++ [.log (.couldNotReach T q), .encode buffer q] := by
      cases he : enc buffer q <;> simpa [he] using hmem
    rcases List.mem_append.1 hmem2 with h | h
    · exact hloop ev h
    · simp at h
      rcases h with rfl | rfl
      · exact Or.inr rfl
      · exact Or.inl rfl

theorem stages_of_compress {ε : Type} (tc : List (Event ε))
    (h : ∀ ev ∈ tc, ev.stage = some 1 ∨ ev.stage = none) :
    ∀ x ∈ tc.filterMap Event.stage, x = 1 := by
  intro x hx
  rw [List.mem_filterMap] at hx
  obtain ⟨ev, hev, hs⟩ := hx
  rcases h ev hev with h1 | h1
  · rw [h1] at hs
    cases hs
    rfl
  · rw [h1] at hs
    cases hs

theorem stages_sorted (l : List Nat) (h : ∀ x ∈ l, x = 1) :
    (0 :: l).Pairwise (fun a b => a ≤ b) ∧ (0 :: (l ++ [2])).Pairwise (fun a b => a ≤ b) := by
  have hl : l.Pairwise (fun a b => a ≤ b) := by
    apply List.pairwise_of_forall_mem_list
    intro a ha b hb
    rw [h a ha, h b hb]
  refine ⟨List.pairwise_cons.2 ⟨fun a _ => Nat.zero_le a, hl⟩, ?_⟩
  refine List.pairwise_cons.2 ⟨fun a _ => Nat.zero_le a, ?_⟩
  rw [List.pairwise_append]
  refine ⟨hl, List.pairwise_singleton _ _, ?_⟩
  intro a ha b hb
  rw [h a ha]
  simp at hb
  omega

theorem toBoolean_false_iff (v : JsValue) :
    v.toBoolean = false ↔
      v = .undefined ∨ v = .null ∨ v = .bool false ∨ v = .number 0 ∨ v = .string "" := by
  cases v <;> simp [JsValue.toBoolean]

theorem handler_failure_response {ε : Type} (fetch : Fetcher ε) (enc : Encoder ε)
    (upload : Uploader ε) (body : RequestBody) (ht : body.imageUrl.toBoolean = true)
    (hf : stageFails fetch enc upload body) :
    (compressUploadHandler fetch enc upload body).2 =
      ⟨500, .error "Failed to compress or upload image"⟩ := by
  rcases handler_cases fetch enc upload body with ⟨_, hb, h⟩ | ⟨_, hb, h⟩ | ⟨hb, e, _, h⟩ |
    ⟨hb, buf, tc, e, _, _, h⟩ | ⟨hb, buf, tc, out, e, _, _, _, h⟩ |
    ⟨hb, buf, tc, out, res, hfe, hc, hu, h⟩
  · rw [ht] at hb
    cases hb
  · rw [ht] at hb
    cases hb
  · rw [h]
  · rw [h]
  · rw [h]
  · exfalso
    rcases hf with ⟨e, he⟩ | ⟨buf2, e, hf2, he⟩ | ⟨buf2, out2, e, hf2, hc2, he⟩
    · rw [hfe] at he
      cases he
    · rw [hfe] at hf2
      cases hf2
      rw [hc] at he
      cases he
    · rw [hfe] at hf2
      cases hf2
      rw [hc] at hc2
      cases hc2
      rw [hu] at he
      cases he

theorem compress_threw_at_90 {ε : Type} (enc : Encoder ε) (buffer : Buffer) (T : Int) (e : ε)
    (h : enc buffer 90 = .error e) :
    compressImageToUnder enc buffer T = ([.encode buffer 90], .error e) := by
  unfold compressImageToUnder
  rw [whileLoop_threw enc buffer T 90 (by omega) e h]

theorem sampleBody_truthy : sampleBody.imageUrl.toBoolean = true := by
  simp [sampleBody, RequestBody.imageUrl, getProperty, List.lookup, JsValue.toBoolean]

theorem sample_all_rejected (buffer : Buffer) :
    ∀ q ∈ searchSchedule, rejectedAt (totalEncoder Unit (sampleEncoder 40000)) buffer 250 q := by
  intro q hq
  rw [rejectedAt_total, sampleEncoder_size]
  simp only [searchSchedule, List.mem_cons, List.mem_singleton, List.not_mem_nil,
    or_false] at hq
  omega

theorem filter_stage_compress {ε : Type} (tc : List (Event ε))
    (h : ∀ ev ∈ tc, ev.stage = some 1 ∨ ev.stage = none) :
    tc.filter (fun ev => ev.stage = some 0) = [] ∧
    tc.filter (fun ev => ev.stage = some 2) = [] := by
  constructor <;>
  · rw [List.filter_eq_nil_iff]
    intro ev hev
    rcases h ev hev with h1 | h1 <;> simp [h1]

theorem count_stage {ε : Type} (pre tc post : List (Event ε)) (k : Nat)
    (h : tc.filter (fun ev => ev.stage = some k) = []) :
    ((pre ++ tc ++ post).filter (fun ev => ev.stage = some k)).length =
      (pre.filter (fun ev => ev.stage = some k)).length +
        (post.filter (fun ev => ev.stage = some k)).length := by
  rw [List.filter_append, List.filter_append, h]
  simp

/-! ## The claims -/

/-- Claim C1 (first fit). For an encoder that never fails, every buffer and every target:
if `q` is a quality of the schedule 90, 80, ..., 20 whose output passes the size test of
line 41 while the outputs at all higher qualities of the schedule fail it, then
compressImageToUnder returns the encoder's output for the original buffer at `q`, its
encoder calls are exactly those at the schedule qualities from 90 down to `q`, and the call
at `q` is the last one.  If no quality of 90, ..., 20 passes, it returns the output at
quality 10, whatever its size, after the calls at 90, 80, ..., 20, 10. -/
theorem compressImageToUnder_first_fit (ε : Type) (f : Buffer → Nat → Buffer)
    (buffer : Buffer) (T : Int) :
    (∀ q ∈ searchSchedule, sizeKB (f buffer q) ≤ T →
      (∀ q' ∈ searchSchedule, q < q' → ¬ sizeKB (f buffer q') ≤ T) →
      (compressImageToUnder (totalEncoder ε f) buffer T).2 = .ok (f buffer q) ∧
      encodeCalls (compressImageToUnder (totalEncoder ε f) buffer T).1 =
        (searchSchedule.filter (fun q' => q ≤ q')).map (fun q' => (buffer, q')) ∧
      (encodeCalls (compressImageToUnder (totalEncoder ε f) buffer T).1).getLast? =
        some (buffer, q)) ∧
    ((∀ q ∈ searchSchedule, ¬ sizeKB (f buffer q) ≤ T) →
      (compressImageToUnder (totalEncoder ε f) buffer T).2 = .ok (f buffer 10) ∧
      encodeCalls (compressImageToUnder (totalEncoder ε f) buffer T).1 =
        [90, 80, 70, 60, 50, 40, 30, 20, 10].map (fun q' => (buffer, q'))) := by
  constructor
  · intro q hq hacc hhigher
    have hstop : ¬ rejectedAt (totalEncoder ε f) buffer T q := by
      rw [rejectedAt_total]
      exact not_not.2 hacc
    have hrej : ∀ q' ∈ searchSchedule, q < q' → rejectedAt (totalEncoder ε f) buffer T q' := by
      intro q' hq' hlt
      rw [rejectedAt_total]
      exact hhigher q' hq' hlt
    have hcalls := calls_stop_at (totalEncoder ε f) buffer T q hq hstop hrej
    refine ⟨?_, hcalls, ?_⟩
    · rw [compress_stop_at (totalEncoder ε f) buffer T q hq hstop hrej]
      rfl
    · rw [hcalls]
      exact getLast_map_pair buffer _ q (schedule_getLast q hq)
  · intro hall
    have hrej : ∀ q ∈ searchSchedule, rejectedAt (totalEncoder ε f) buffer T q := by
      intro q hq
      rw [rejectedAt_total]
      exact hall q hq
    refine ⟨?_, ?_⟩
    · rw [compress_all_rejected (totalEncoder ε f) buffer T hrej]
      rfl
    · rw [calls_all_rejected (totalEncoder ε f) buffer T hrej]
      rfl

/-- Claim C1 at a sample encoder with 4000 bytes per quality step and target 250: the first
quality that fits is 60. -/
theorem compressImageToUnder_first_fit_witness :
    (60 ∈ searchSchedule ∧ sizeKB (sampleEncoder 4000 [] 60) ≤ 250 ∧
      ∀ q' ∈ searchSchedule, 60 < q' → ¬ sizeKB (sampleEncoder 4000 [] q') ≤ 250) ∧
    (compressImageToUnder (totalEncoder Unit (sampleEncoder 4000)) [] 250).2 =
      .ok (sampleEncoder 4000 [] 60) ∧
    encodeCalls (compressImageToUnder (totalEncoder Unit (sampleEncoder 4000)) [] 250).1 =
      [([], 90), ([], 80), ([], 70), ([], 60)] := by
  have h1 : (60 : Nat) ∈ searchSchedule := by decide
  have h2 : sizeKB (sampleEncoder 4000 [] 60) ≤ 250 := by
    rw [sampleEncoder_size]; norm_num
  have h3 : ∀ q' ∈ searchSchedule, 60 < q' → ¬ sizeKB (sampleEncoder 4000 [] q') ≤ 250 := by
    intro q' hq' hlt
    rw [sampleEncoder_size]
    simp only [searchSchedule, List.mem_cons, List.mem_singleton, List.not_mem_nil,
      or_false] at hq'
    omega
  have h := (compressImageToUnder_first_fit Unit (sampleEncoder 4000) [] 250).1 60 h1 h2 h3
  exact ⟨⟨h1, h2, h3⟩, h.1, h.2.1⟩

/-- Claim C2 (quality schedule). For every encoder, buffer and target, the encoder calls of
compressImageToUnder are the first `n` steps of 90, 80, 70, ... on the original buffer for
some `n` with 1 ≤ n ≤ 9: the sequence starts at 90, goes down by exactly 10 per call, is not
empty and has at most 9 elements.  Every call made by the body of the while loop has quality
above 10, and the trace of the function is the loop's trace, followed at most by the line of
line 51 and one call at quality 10.  Quality 10 is called exactly when all of 90, ..., 20
produced a rejected output, and then the calls are 90, 80, ..., 20, 10, with 10 last. -/
theorem quality_schedule {ε : Type} (enc : Encoder ε) (buffer : Buffer) (T : Int) :
    (∃ n, 1 ≤ n ∧ n ≤ 9 ∧
      encodeCalls (compressImageToUnder enc buffer T).1 =
        (List.range n).map (fun i => (buffer, 90 - 10 * i))) ∧
    (∀ b q, (b, q) ∈ encodeCalls (whileLoop enc buffer T 90).1 → 10 < q) ∧
    ((compressImageToUnder enc buffer T).1 = (whileLoop enc buffer T 90).1 ∨
      (compressImageToUnder enc buffer T).1 =
        (whileLoop enc buffer T 90).1 ++
          [.log (.couldNotReach T 10), .encode buffer 10]) ∧
    ((buffer, 10) ∈ encodeCalls (compressImageToUnder enc buffer T).1 ↔
      ∀ q ∈ searchSchedule, rejectedAt enc buffer T q) ∧
    ((buffer, 10) ∈ encodeCalls (compressImageToUnder enc buffer T).1 →
      encodeCalls (compressImageToUnder enc buffer T).1 =
        [90, 80, 70, 60, 50, 40, 30, 20, 10].map (fun q' => (buffer, q'))) := by
  have hbody : ∀ b q, (b, q) ∈ encodeCalls (whileLoop enc buffer T 90).1 → 10 < q :=
    fun b q h => (whileLoop_body_quality enc buffer T 90 b q h).2.1
  rcases first_stop (rejectedAt enc buffer T) searchSchedule searchSchedule_pairwise with
    hall | ⟨q, hq, hstop, hrej⟩
  · have hcalls := calls_all_rejected enc buffer T hall
    have hten : (buffer, 10) ∈ encodeCalls (compressImageToUnder enc buffer T).1 := by
      rw [hcalls]
      simp [fullSchedule, searchSchedule]
    refine ⟨⟨9, by omega, by omega, ?_⟩, hbody, Or.inr ?_, ⟨fun _ => hall, fun _ => hten⟩,
      fun _ => ?_⟩
    · rw [hcalls]
      rfl
    · rw [compress_all_rejected enc buffer T hall, loop_all_rejected enc buffer T hall]
    · rw [hcalls]
      rfl
  · have hcalls := calls_stop_at enc buffer T q hq hstop hrej
    have hten : (buffer, 10) ∉ encodeCalls (compressImageToUnder enc buffer T).1 := by
      rw [hcalls]
      exact ten_not_stop_call buffer q
    have hq20 : 20 ≤ q := by
      simp only [searchSchedule, List.mem_cons, List.mem_singleton, List.not_mem_nil,
        or_false] at hq
      omega
    refine ⟨⟨(90 - q) / 10 + 1, by omega, by omega, ?_⟩, hbody, Or.inl ?_,
      ⟨fun h => absurd h hten, fun h => absurd (h q hq) hstop⟩, fun h => absurd h hten⟩
    · rw [hcalls, schedule_range q hq, List.map_map]
      rfl
    · rw [compress_stop_at enc buffer T q hq hstop hrej, loop_stop_at enc buffer T q hq hstop hrej]
      cases enc buffer q <;> rfl

/-- Claim C2 at a sample encoder whose outputs are rejected at every quality of 90, ..., 20:
quality 10 is called, and the calls are 90, 80, ..., 20, 10. -/
theorem quality_schedule_witness :
    (∀ q ∈ searchSchedule, rejectedAt (totalEncoder Unit (sampleEncoder 40000)) [] 250 q) ∧
    (([] : Buffer), 10) ∈
      encodeCalls (compressImageToUnder (totalEncoder Unit (sampleEncoder 40000)) [] 250).1 ∧
    encodeCalls (compressImageToUnder (totalEncoder Unit (sampleEncoder 40000)) [] 250).1 =
      [90, 80, 70, 60, 50, 40, 30, 20, 10].map (fun q' => (([] : Buffer), q')) :=
  have h := sample_all_rejected []
  have hten := (quality_schedule (totalEncoder Unit (sampleEncoder 40000)) [] 250).2.2.2.1.2 h
  ⟨h, hten, (quality_schedule (totalEncoder Unit (sampleEncoder 40000)) [] 250).2.2.2.2 hten⟩

/-- Claim C3 (evaluation at an input where the code misses the claim). With an encoder whose
output at quality 90 has 256050 bytes, the while loop returns that output from line 43 at the
first iteration, logging size 250, and compressImageToUnder(buffer, 250) resolves to it,
although 256050 bytes is more than 250 * 1024 = 256000 bytes. -/
theorem success_path_exceeds_target :
    whileLoop (totalEncoder Unit (sampleEncoder 2845)) [] 250 90 =
      ([.encode [] 90, .log (.compressionSuccessful 90 250)],
        .returned (sampleEncoder 2845 [] 90)) ∧
    (compressImageToUnder (totalEncoder Unit (sampleEncoder 2845)) [] 250).2 =
      .ok (sampleEncoder 2845 [] 90) ∧
    (sampleEncoder 2845 [] 90).length = 256050 ∧
    ¬ (sampleEncoder 2845 [] 90).length ≤ 250 * 1024 := by
  have hlen : (sampleEncoder 2845 [] 90).length = 256050 := by
    simp only [sampleEncoder, List.length_replicate]
  have hsz : sizeKB (sampleEncoder 2845 [] 90) = 250 := by
    rw [sizeKB_eq, hlen]
    norm_num
  have hloop := whileLoop_accept (totalEncoder Unit (sampleEncoder 2845)) [] 250 90
    (by omega) (sampleEncoder 2845 [] 90) rfl (by rw [hsz])
  rw [hsz] at hloop
  refine ⟨hloop, ?_, hlen, ?_⟩
  · rw [compress_of_returned _ _ _ _ _ hloop]
  · rw [hlen]
    norm_num

/-- Claim C4 (already-small input). If the encoding of the buffer at quality 90 succeeds with
at most 250 * 1024 bytes, then compressImageToUnder(buffer, 250) returns exactly that output
and calls the encoder exactly once, at quality 90. -/
theorem already_small_input {ε : Type} (enc : Encoder ε) (buffer out : Buffer)
    (h90 : enc buffer 90 = .ok out) (hlen : out.length ≤ 250 * 1024) :
    (compressImageToUnder enc buffer 250).2 = .ok out ∧
    encodeCalls (compressImageToUnder enc buffer 250).1 = [(buffer, 90)] := by
  have hc : sizeKB out ≤ 250 := by
    rw [sizeKB_le_iff]
    omega
  unfold compressImageToUnder
  rw [whileLoop_accept enc buffer 250 90 (by omega) out h90 hc]
  exact ⟨rfl, rfl⟩

/-- Claim C4 at a sample encoder whose output at quality 90 has 90000 bytes. -/
theorem already_small_input_witness :
    (totalEncoder Unit (sampleEncoder 1000) [] 90 = .ok (sampleEncoder 1000 [] 90) ∧
      (sampleEncoder 1000 [] 90).length ≤ 250 * 1024) ∧
    (compressImageToUnder (totalEncoder Unit (sampleEncoder 1000)) [] 250).2 =
      .ok (sampleEncoder 1000 [] 90) ∧
    encodeCalls (compressImageToUnder (totalEncoder Unit (sampleEncoder 1000)) [] 250).1 =
      [([], 90)] := by
  have h1 : totalEncoder Unit (sampleEncoder 1000) [] 90 = .ok (sampleEncoder 1000 [] 90) := rfl
  have h2 : (sampleEncoder 1000 [] 90).length ≤ 250 * 1024 := by
    simp only [sampleEncoder, List.length_replicate]
    norm_num
  exact ⟨⟨h1, h2⟩,
    already_small_input (totalEncoder Unit (sampleEncoder 1000)) [] (sampleEncoder 1000 [] 90) h1 h2⟩

/-- Claim C5 (encoder failure propagates unchanged). compressImageToUnder fails with `err`
if and only if the encoder fails with `err` at a quality `q` of 90, 80, ..., 20, 10 such that
every higher quality of that list produced a rejected output.  In that case the result is
that error and no buffer, and the encoder calls are exactly those from 90 down to `q`, so no
call follows the failing one. -/
theorem encoder_failure_propagates {ε : Type} (enc : Encoder ε) (buffer : Buffer) (T : Int)
    (err : ε) :
    ((compressImageToUnder enc buffer T).2 = .error err ↔
      ∃ q ∈ [90, 80, 70, 60, 50, 40, 30, 20, 10], enc buffer q = .error err ∧
        ∀ q' ∈ [90, 80, 70, 60, 50, 40, 30, 20, 10], q < q' → rejectedAt enc buffer T q') ∧
    (∀ q ∈ [90, 80, 70, 60, 50, 40, 30, 20, 10], enc buffer q = .error err →
      (∀ q' ∈ [90, 80, 70, 60, 50, 40, 30, 20, 10], q < q' → rejectedAt enc buffer T q') →
      (compressImageToUnder enc buffer T).2 = .error err ∧
      (∀ out, (compressImageToUnder enc buffer T).2 ≠ .ok out) ∧
      encodeCalls (compressImageToUnder enc buffer T).1 =
        ([90, 80, 70, 60, 50, 40, 30, 20, 10].filter (fun q' => q ≤ q')).map
          (fun q' => (buffer, q'))) := by
  have key : ∀ q ∈ [90, 80, 70, 60, 50, 40, 30, 20, 10], enc buffer q = .error err →
      (∀ q' ∈ [90, 80, 70, 60, 50, 40, 30, 20, 10], q < q' → rejectedAt enc buffer T q') →
      (compressImageToUnder enc buffer T).2 = .error err ∧
      encodeCalls (compressImageToUnder enc buffer T).1 =
        ([90, 80, 70, 60, 50, 40, 30, 20, 10].filter (fun q' => q ≤ q')).map
          (fun q' => (buffer, q')) := by
    intro q hq he hhigher
    have hq2 : q ∈ searchSchedule ∨ q = 10 := by
      simpa [searchSchedule, or_assoc] using hq
    have hsub : ∀ q' ∈ searchSchedule, q' ∈ [90, 80, 70, 60, 50, 40, 30, 20, 10] := by decide
    rcases hq2 with hq2 | rfl
    · have hstop : ¬ rejectedAt enc buffer T q := by
        rintro ⟨c, hc, _⟩
        rw [he] at hc
        cases hc
      have hrej : ∀ q' ∈ searchSchedule, q < q' → rejectedAt enc buffer T q' :=
        fun q' hq' hlt => hhigher q' (hsub q' hq') hlt
      have hfilter : ∀ q ∈ searchSchedule,
          [90, 80, 70, 60, 50, 40, 30, 20, 10].filter (fun q' => q ≤ q') =
            searchSchedule.filter (fun q' => q ≤ q') := by decide
      refine ⟨?_, ?_⟩
      · rw [compress_stop_at enc buffer T q hq2 hstop hrej, he]
      · rw [calls_stop_at enc buffer T q hq2 hstop hrej, hfilter q hq2]
    · have hrej : ∀ q' ∈ searchSchedule, rejectedAt enc buffer T q' := by
        intro q' hq'
        refine hhigher q' (hsub q' hq') ?_
        revert q' hq'
        decide
      refine ⟨?_, ?_⟩
      · rw [compress_all_rejected enc buffer T hrej, he]
      · rw [calls_all_rejected enc buffer T hrej]
        rfl
  refine ⟨⟨?_, ?_⟩, ?_⟩
  · intro hfail
    rcases first_stop (rejectedAt enc buffer T) searchSchedule searchSchedule_pairwise with
      hall | ⟨q, hq, hstop, hrej⟩
    · rw [compress_all_rejected enc buffer T hall] at hfail
      refine ⟨10, by decide, hfail, ?_⟩
      intro q' hq' hlt
      refine hall q' ?_
      simp only [List.mem_cons, List.mem_singleton, List.not_mem_nil, or_false] at hq'
      simp only [searchSchedule, List.mem_cons, List.mem_singleton, List.not_mem_nil, or_false]
      omega
    · rw [compress_stop_at enc buffer T q hq hstop hrej] at hfail
      have hsub : ∀ q' ∈ searchSchedule, q' ∈ [90, 80, 70, 60, 50, 40, 30, 20, 10] := by
        decide
      have hq' : q ∈ [90, 80, 70, 60, 50, 40, 30, 20, 10] := hsub q hq
      cases he : enc buffer q with
      | ok c =>
        rw [he] at hfail
        cases hfail
      | error e =>
        rw [he] at hfail
        have hee : e = err := by
          simpa using hfail
        subst hee
        refine ⟨q, hq', he, ?_⟩
        intro q' hq3 hlt
        refine hrej q' ?_ hlt
        simp only [List.mem_cons, List.mem_singleton, List.not_mem_nil, or_false] at hq3
        simp only [searchSchedule, List.mem_cons, List.mem_singleton, List.not_mem_nil,
          or_false]
        simp only [searchSchedule, List.mem_cons, List.mem_singleton, List.not_mem_nil,
          or_false] at hq
        omega
  · rintro ⟨q, hq, he, hhigher⟩
    exact (key q hq he hhigher).1
  · intro q hq he hhigher
    have h := key q hq he hhigher
    refine ⟨h.1, ?_, h.2⟩
    intro out hout
    rw [h.1] at hout
    cases hout

/-- Claim C5 at an encoder that rejects at quality 70 after oversized outputs at 90 and 80. -/
theorem encoder_failure_propagates_witness :
    (70 ∈ [90, 80, 70, 60, 50, 40, 30, 20, 10] ∧
      failingEncoder [] 70 = .error "Input buffer contains unsupported image format" ∧
      ∀ q' ∈ [90, 80, 70, 60, 50, 40, 30, 20, 10], 70 < q' →
        rejectedAt failingEncoder [] 250 q') ∧
    (compressImageToUnder failingEncoder [] 250).2 =
      .error "Input buffer contains unsupported image format" ∧
    encodeCalls (compressImageToUnder failingEncoder [] 250).1 =
      [([], 90), ([], 80), ([], 70)] := by
  have h1 : (70 : Nat) ∈ [90, 80, 70, 60, 50, 40, 30, 20, 10] := by decide
  have h2 : failingEncoder [] 70 =
      .error "Input buffer contains unsupported image format" := rfl
  have h3 : ∀ q' ∈ [90, 80, 70, 60, 50, 40, 30, 20, 10], 70 < q' →
      rejectedAt failingEncoder [] 250 q' := by
    intro q' hq' hlt
    have hne : q' ≠ 70 := by omega
    refine ⟨sampleEncoder 4000 [] q', by simp [failingEncoder, hne], ?_⟩
    rw [sampleEncoder_size]
    omega
  have h := (encoder_failure_propagates failingEncoder [] 250
    "Input buffer contains unsupported image format").2 70 h1 h2 h3
  exact ⟨⟨h1, h2, h3⟩, h.1, h.2.2⟩

/-- Claim C6, counterexample. For the body object whose imageUrl is `false`, a value that
is neither absent, nor null, nor the empty string, the handler answers 400 with the text
Missing 'imageUrl' field. -/
theorem validation_counterexample :
    (compressUploadHandler (fun _ => (.ok [] : Except Unit Buffer))
      (totalEncoder Unit (sampleEncoder 1000)) (fun _ _ => .ok ⟨"https://res.cloudinary.com/x"⟩)
      (.object [("imageUrl", .bool false)])).2 = ⟨400, .error "Missing 'imageUrl' field"⟩ ∧
    ¬ missingOrEmpty (RequestBody.imageUrl (.object [("imageUrl", .bool false)])) := by
  constructor
  · rfl
  · simp [missingOrEmpty, RequestBody.imageUrl, getProperty, List.lookup]

/-- Claim C6, amended (validation). For a request whose body was parsed into an object,
the handler answers with status 400 and the body whose error is Missing 'imageUrl' field
if and only if the imageUrl of that object is falsy, and it answers with status 400 in no
other case; for a falsy imageUrl the trace is empty, so nothing is fetched, encoded or
uploaded.  The falsy values are: absent from the object, null, false, the number 0 and the
empty string. -/
theorem validation_falsy {ε : Type} (fetch : Fetcher ε) (enc : Encoder ε) (upload : Uploader ε)
    (properties : List (String × JsValue)) :
    ((compressUploadHandler fetch enc upload (.object properties)).2 =
        ⟨400, .error "Missing 'imageUrl' field"⟩ ↔
      (getProperty properties "imageUrl").toBoolean = false) ∧
    ((compressUploadHandler fetch enc upload (.object properties)).2.status = 400 ↔
      (getProperty properties "imageUrl").toBoolean = false) ∧
    ((getProperty properties "imageUrl").toBoolean = false →
      (compressUploadHandler fetch enc upload (.object properties)).1 = []) ∧
    ((getProperty properties "imageUrl").toBoolean = false ↔
      getProperty properties "imageUrl" = .undefined ∨
        getProperty properties "imageUrl" = .null ∨
        getProperty properties "imageUrl" = .bool false ∨
        getProperty properties "imageUrl" = .number 0 ∨
        getProperty properties "imageUrl" = .string "") ∧
    (getProperty properties "imageUrl" = .undefined ↔
      properties.lookup "imageUrl" = none ∨
        properties.lookup "imageUrl" = some .undefined) := by
  have hcases := handler_cases fetch enc upload (.object properties)
  simp only [RequestBody.imageUrl] at hcases
  refine ⟨?_, ?_, ?_, toBoolean_false_iff _, ?_⟩
  · rcases hcases with ⟨hundef, _, _⟩ | ⟨_, hb, h⟩ | ⟨hb, e, _, h⟩ |
      ⟨hb, buf, tc, e, _, _, h⟩ | ⟨hb, buf, tc, out, e, _, _, _, h⟩ |
      ⟨hb, buf, tc, out, res, _, _, _, h⟩
    · cases hundef
    all_goals simp [h, hb]
  · rcases hcases with ⟨hundef, _, _⟩ | ⟨_, hb, h⟩ | ⟨hb, e, _, h⟩ |
      ⟨hb, buf, tc, e, _, _, h⟩ | ⟨hb, buf, tc, out, e, _, _, _, h⟩ |
      ⟨hb, buf, tc, out, res, _, _, _, h⟩
    · cases hundef
    all_goals simp [h, hb]
  · rcases hcases with ⟨hundef, _, _⟩ | ⟨_, hb, h⟩ | ⟨hb, e, _, h⟩ |
      ⟨hb, buf, tc, e, _, _, h⟩ | ⟨hb, buf, tc, out, e, _, _, _, h⟩ |
      ⟨hb, buf, tc, out, res, _, _, _, h⟩
    · cases hundef
    all_goals simp [h, hb]
  · unfold getProperty
    cases hl : properties.lookup "imageUrl" with
    | none => simp
    | some v => simp

/-- Claim C6 (amended) at a body object without an imageUrl property. -/
theorem validation_falsy_witness :
    (getProperty [("url", .string "https://example.com/a.png")] "imageUrl").toBoolean = false ∧
    (compressUploadHandler (fun _ => (.ok [] : Except Unit Buffer))
      (totalEncoder Unit (sampleEncoder 1000)) (fun _ _ => .ok ⟨"https://res.cloudinary.com/x"⟩)
      (.object [("url", .string "https://example.com/a.png")])).1 = [] := by
  have hu : (getProperty [("url", .string "https://example.com/a.png")] "imageUrl").toBoolean =
      false := by
    simp [getProperty, List.lookup, JsValue.toBoolean]
  exact ⟨hu, (validation_falsy _ _ _ _).2.2.1 hu⟩

/-- Claim C7 (uniform runtime failure). For two requests with a truthy imageUrl, each with a
failing fetch, compressor or upload, over any two types of thrown values: the response to the
first is status 500 with the error Failed to compress or upload image, and the response to
the second is the same response, whatever the failing stages and the thrown values. -/
theorem runtime_failure_uniform {ε₁ ε₂ : Type}
    (fetch₁ : Fetcher ε₁) (enc₁ : Encoder ε₁) (upload₁ : Uploader ε₁) (body₁ : RequestBody)
    (fetch₂ : Fetcher ε₂) (enc₂ : Encoder ε₂) (upload₂ : Uploader ε₂) (body₂ : RequestBody)
    (ht₁ : body₁.imageUrl.toBoolean = true) (hf₁ : stageFails fetch₁ enc₁ upload₁ body₁)
    (ht₂ : body₂.imageUrl.toBoolean = true) (hf₂ : stageFails fetch₂ enc₂ upload₂ body₂) :
    (compressUploadHandler fetch₁ enc₁ upload₁ body₁).2 =
      ⟨500, .error "Failed to compress or upload image"⟩ ∧
    (compressUploadHandler fetch₂ enc₂ upload₂ body₂).2 =
      (compressUploadHandler fetch₁ enc₁ upload₁ body₁).2 := by
  rw [handler_failure_response fetch₁ enc₁ upload₁ body₁ ht₁ hf₁,
    handler_failure_response fetch₂ enc₂ upload₂ body₂ ht₂ hf₂]
  exact ⟨rfl, rfl⟩

/-- Claim C7 at a run whose fetch is refused and a run whose encoder rejects the fetched bytes. -/
theorem runtime_failure_uniform_witness :
    (compressUploadHandler (fun _ => (.error "ECONNREFUSED" : Except String Buffer))
      (totalEncoder String (sampleEncoder 1000)) (fun _ _ => .ok ⟨"https://res.cloudinary.com/x"⟩)
      sampleBody).2 = ⟨500, .error "Failed to compress or upload image"⟩ ∧
    (compressUploadHandler (fun _ => (.ok [1, 2, 3] : Except Nat Buffer))
      (fun _ _ => .error 415) (fun _ _ => .error 401) sampleBody).2 =
    (compressUploadHandler (fun _ => (.error "ECONNREFUSED" : Except String Buffer))
      (totalEncoder String (sampleEncoder 1000)) (fun _ _ => .ok ⟨"https://res.cloudinary.com/x"⟩)
      sampleBody).2 :=
  runtime_failure_uniform _ _ _ sampleBody _ _ _ sampleBody sampleBody_truthy
    (Or.inl ⟨"ECONNREFUSED", rfl⟩) sampleBody_truthy
    (Or.inr (Or.inl ⟨[1, 2, 3], 415, rfl, by rw [compress_threw_at_90 _ _ _ 415 rfl]⟩))

/-- Claim C8 (no upload after an earlier failure). In every run of the handler: an upload
event occurs only if the fetch succeeded and the compressor, on the fetched bytes, returned
the uploaded buffer; if the fetch fails there is no encoder call and no upload; if the
compressor fails there is no upload; there is at most one fetch and at most one upload; the
encoder calls, if any, are those of one call of the compressor on the fetched bytes; and in
the trace every fetch precedes every encoder call, which precedes every upload. -/
theorem no_upload_after_failure {ε : Type} (fetch : Fetcher ε) (enc : Encoder ε)
    (upload : Uploader ε) (body : RequestBody) :
    (∀ folder data, Event.upload folder data ∈ (compressUploadHandler fetch enc upload body).1 →
      ∃ buf, fetch body.imageUrl = .ok buf ∧ (compressImageToUnder enc buf 250).2 = .ok data) ∧
    ((∃ e, fetch body.imageUrl = .error e) →
      ∀ ev ∈ (compressUploadHandler fetch enc upload body).1,
        ev.stage ≠ some 1 ∧ ev.stage ≠ some 2) ∧
    (∀ buf e, fetch body.imageUrl = .ok buf → (compressImageToUnder enc buf 250).2 = .error e →
      ∀ ev ∈ (compressUploadHandler fetch enc upload body).1, ev.stage ≠ some 2) ∧
    (((compressUploadHandler fetch enc upload body).1.filter
        (fun ev => ev.stage = some 0)).length ≤ 1 ∧
      ((compressUploadHandler fetch enc upload body).1.filter
        (fun ev => ev.stage = some 2)).length ≤ 1) ∧
    (encodeCalls (compressUploadHandler fetch enc upload body).1 = [] ∨
      ∃ buf, fetch body.imageUrl = .ok buf ∧
        encodeCalls (compressUploadHandler fetch enc upload body).1 =
          encodeCalls (compressImageToUnder enc buf 250).1) ∧
    ((compressUploadHandler fetch enc upload body).1.filterMap Event.stage).Pairwise
      (fun a b => a ≤ b) := by
  rcases handler_cases fetch enc upload body with ⟨_, hb, h⟩ | ⟨_, hb, h⟩ |
    ⟨hb, e, hfe, h⟩ | ⟨hb, buf, tc, e, hfe, hc, h⟩ | ⟨hb, buf, tc, out, e, hfe, hc, hu, h⟩ |
    ⟨hb, buf, tc, out, res, hfe, hc, hu, h⟩
  · rw [h]
    simp [encodeCalls, Event.stage]
  · rw [h]
    simp [encodeCalls]
  · rw [h]
    simp [encodeCalls, Event.stage]
  · have hstage := compress_trace_stage enc buf 250
    rw [hc] at hstage
    have hfil := filter_stage_compress tc hstage
    have hsort := stages_sorted _ (stages_of_compress tc hstage)
    rw [h]
    refine ⟨?_, ?_, ?_, ?_, Or.inr ⟨buf, hfe, ?_⟩, ?_⟩
    · intro folder data hmem
      exfalso
      simp only [List.mem_append, List.mem_cons, List.mem_singleton, List.not_mem_nil,
        or_false] at hmem
      rcases hmem with (hmem | hmem) | hmem
      · rcases hmem with hmem | hmem | hmem <;> cases hmem
      · rcases hstage _ hmem with h1 | h1 <;> cases h1
      · cases hmem
    · rintro ⟨e2, he2⟩
      rw [hfe] at he2
      cases he2
    · intro buf2 e2 _ _ ev hmem
      simp only [List.mem_append, List.mem_cons, List.mem_singleton, List.not_mem_nil,
        or_false] at hmem
      rcases hmem with (hmem | hmem) | hmem
      · rcases hmem with rfl | rfl | rfl <;> simp [Event.stage]
      · rcases hstage _ hmem with h1 | h1 <;> simp [h1]
      · subst hmem
        simp [Event.stage]
    · rw [count_stage _ _ _ 0 hfil.1, count_stage _ _ _ 2 hfil.2]
      simp [Event.stage]
    · rw [hc]
      simp [encodeCalls_append, encodeCalls]
    · simpa [List.filterMap_append, List.filterMap_cons, Event.stage] using hsort.1
  · have hstage := compress_trace_stage enc buf 250
    rw [hc] at hstage
    have hfil := filter_stage_compress tc hstage
    have hsort := stages_sorted _ (stages_of_compress tc hstage)
    rw [h]
    refine ⟨?_, ?_, ?_, ?_, Or.inr ⟨buf, hfe, ?_⟩, ?_⟩
    · intro folder data hmem
      refine ⟨buf, hfe, ?_⟩
      rw [hc]
      simp only [List.mem_append, List.mem_cons, List.mem_singleton, List.not_mem_nil,
        or_false] at hmem
      rcases hmem with (hmem | hmem) | hmem
      · rcases hmem with hmem | hmem | hmem <;> cases hmem
      · rcases hstage _ hmem with h1 | h1 <;> cases h1
      · rcases hmem with hmem | hmem | hmem
        · cases hmem
        · cases hmem
          rfl
        · cases hmem
    · rintro ⟨e2, he2⟩
      rw [hfe] at he2
      cases he2
    · intro buf2 e2 hf2 hc2
      rw [hfe] at hf2
      cases hf2
      rw [hc] at hc2
      cases hc2
    · rw [count_stage _ _ _ 0 hfil.1, count_stage _ _ _ 2 hfil.2]
      simp [Event.stage]
    · rw [hc]
      simp [encodeCalls_append, encodeCalls]
    · simpa [List.filterMap_append, List.filterMap_cons, Event.stage] using hsort.2
  · have hstage := compress_trace_stage enc buf 250
    rw [hc] at hstage
    have hfil := filter_stage_compress tc hstage
    have hsort := stages_sorted _ (stages_of_compress tc hstage)
    rw [h]
    refine ⟨?_, ?_, ?_, ?_, Or.inr ⟨buf, hfe, ?_⟩, ?_⟩
    · intro folder data hmem
      refine ⟨buf, hfe, ?_⟩
      rw [hc]
      simp only [List.mem_append, List.mem_cons, List.mem_singleton, List.not_mem_nil,
        or_false] at hmem
      rcases hmem with (hmem | hmem) | hmem
      · rcases hmem with hmem | hmem | hmem <;> cases hmem
      · rcases hstage _ hmem with h1 | h1 <;> cases h1
      · rcases hmem with hmem | hmem | hmem
        · cases hmem
        · cases hmem
          rfl
        · cases hmem
    · rintro ⟨e2, he2⟩
      rw [hfe] at he2
      cases he2
    · intro buf2 e2 hf2 hc2
      rw [hfe] at hf2
      cases hf2
      rw [hc] at hc2
      cases hc2
    · rw [count_stage _ _ _ 0 hfil.1, count_stage _ _ _ 2 hfil.2]
      simp [Event.stage]
    · rw [hc]
      simp [encodeCalls_append, encodeCalls]
    · simpa [List.filterMap_append, List.filterMap_cons, Event.stage] using hsort.2

/-- Claim C8 at a run whose fetch is refused and a run whose encoder rejects the fetched bytes. -/
theorem no_upload_after_failure_witness :
    ((∃ e, (fun _ => (.error "ECONNREFUSED" : Except String Buffer)) sampleBody.imageUrl =
        .error e) ∧
      ∀ ev ∈ (compressUploadHandler (fun _ => (.error "ECONNREFUSED" : Except String Buffer))
          (totalEncoder String (sampleEncoder 1000))
          (fun _ _ => .ok ⟨"https://res.cloudinary.com/x"⟩) sampleBody).1,
        ev.stage ≠ some 1 ∧ ev.stage ≠ some 2) ∧
    ∀ ev ∈ (compressUploadHandler (fun _ => (.ok [1, 2, 3] : Except Nat Buffer))
        (fun _ _ => .error 415) (fun _ _ => .ok ⟨"https://res.cloudinary.com/x"⟩)
        sampleBody).1,
      ev.stage ≠ some 2 :=
  ⟨⟨⟨"ECONNREFUSED", rfl⟩,
    (no_upload_after_failure (fun _ => (.error "ECONNREFUSED" : Except String Buffer))
      (totalEncoder String (sampleEncoder 1000))
      (fun _ _ => .ok ⟨"https://res.cloudinary.com/x"⟩) sampleBody).2.1
      ⟨"ECONNREFUSED", rfl⟩⟩,
    (no_upload_after_failure (fun _ => (.ok [1, 2, 3] : Except Nat Buffer))
      (fun _ _ => .error 415) (fun _ _ => .ok ⟨"https://res.cloudinary.com/x"⟩)
      sampleBody).2.2.1 [1, 2, 3] 415 rfl (by rw [compress_threw_at_90 _ _ _ 415 rfl])⟩

/-- Claim C9 (success response). The handler answers with status 200 if and only if imageUrl
is truthy and the fetch, the compressor on the fetched bytes and the upload of the
compressor's result all succeed.  In that case the response is status 200 with success true,
the secure_url of the upload result and the note Image compressed & uploaded successfully,
and the only upload of the run is that of the compressor's result to the folder
compressed-images; nothing in the response depends on the size of that result. -/
theorem success_response {ε : Type} (fetch : Fetcher ε) (enc : Encoder ε) (upload : Uploader ε)
    (body : RequestBody) :
    ((compressUploadHandler fetch enc upload body).2.status = 200 ↔
      body.imageUrl.toBoolean = true ∧ ∃ buf out res, fetch body.imageUrl = .ok buf ∧
        (compressImageToUnder enc buf 250).2 = .ok out ∧
        upload "compressed-images" out = .ok res) ∧
    (∀ buf out res, body.imageUrl.toBoolean = true → fetch body.imageUrl = .ok buf →
      (compressImageToUnder enc buf 250).2 = .ok out →
      upload "compressed-images" out = .ok res →
      (compressUploadHandler fetch enc upload body).2 =
        ⟨200, .success true res.secure_url "Image compressed & uploaded successfully"⟩ ∧
      (∀ folder data, Event.upload folder data ∈ (compressUploadHandler fetch enc upload body).1 ↔
        folder = "compressed-images" ∧ data = out)) := by
  rcases handler_cases fetch enc upload body with ⟨_, hb, h⟩ | ⟨_, hb, h⟩ |
    ⟨hb, e, hfe, h⟩ | ⟨hb, buf, tc, e, hfe, hc, h⟩ | ⟨hb, buf, tc, out, e, hfe, hc, hu, h⟩ |
    ⟨hb, buf, tc, out, res, hfe, hc, hu, h⟩
  · constructor
    · simp [h, hb]
    · intro buf out res ht
      rw [hb] at ht
      cases ht
  · constructor
    · simp [h, hb]
    · intro buf out res ht
      rw [hb] at ht
      cases ht
  · constructor
    · simp [h, hb, hfe]
    · intro buf out res _ hf2
      rw [hfe] at hf2
      cases hf2
  · constructor
    · simp [h, hb, hfe, hc]
    · intro buf2 out res _ hf2 hc2
      rw [hfe] at hf2
      cases hf2
      rw [hc] at hc2
      cases hc2
  · constructor
    · simp [h, hb, hfe, hc, hu]
    · intro buf2 out2 res _ hf2 hc2 hu2
      rw [hfe] at hf2
      cases hf2
      rw [hc] at hc2
      cases hc2
      rw [hu] at hu2
      cases hu2
  · constructor
    · simp [h, hb, hfe, hc, hu]
    · intro buf2 out2 res2 _ hf2 hc2 hu2
      rw [hfe] at hf2
      cases hf2
      rw [hc] at hc2
      cases hc2
      rw [hu] at hu2
      cases hu2
      refine ⟨by rw [h], ?_⟩
      intro folder data
      have hstage := compress_trace_stage enc buf 250
      rw [hc] at hstage
      rw [h]
      constructor
      · intro hmem
        simp only [List.mem_append, List.mem_cons, List.mem_singleton, List.not_mem_nil,
          or_false, false_or, Event.upload.injEq] at hmem
        rcases hmem with (hmem | hmem) | hmem
        · rcases hmem with hmem | hmem | hmem <;> cases hmem
        · rcases hstage _ hmem with h1 | h1 <;> cases h1
        · rcases hmem with hmem | hmem | hmem
          · cases hmem
          · exact hmem
          · cases hmem
      · rintro ⟨rfl, rfl⟩
        simp

/-- Claim C9 at a run in which every quality is rejected and the over-budget final try is
uploaded: the response is the same 200. -/
theorem success_response_witness :
    (sampleBody.imageUrl.toBoolean = true ∧
      (compressImageToUnder (totalEncoder Unit (sampleEncoder 40000)) [1, 2, 3] 250).2 =
        .ok (sampleEncoder 40000 [1, 2, 3] 10) ∧
      ¬ sizeKB (sampleEncoder 40000 [1, 2, 3] 10) ≤ 250) ∧
    (compressUploadHandler (fun _ => (.ok [1, 2, 3] : Except Unit Buffer))
      (totalEncoder Unit (sampleEncoder 40000))
      (fun _ _ => .ok ⟨"https://res.cloudinary.com/demo/image/upload/a.jpg"⟩) sampleBody).2 =
      ⟨200, .success true "https://res.cloudinary.com/demo/image/upload/a.jpg"
        "Image compressed & uploaded successfully"⟩ := by
  have hc : (compressImageToUnder (totalEncoder Unit (sampleEncoder 40000)) [1, 2, 3] 250).2 =
      .ok (sampleEncoder 40000 [1, 2, 3] 10) := by
    rw [compress_all_rejected _ _ _ (sample_all_rejected [1, 2, 3])]
    rfl
  have hover : ¬ sizeKB (sampleEncoder 40000 [1, 2, 3] 10) ≤ 250 := by
    rw [sampleEncoder_size]
    norm_num
  exact ⟨⟨sampleBody_truthy, hc, hover⟩,
    ((success_response (fun _ => (.ok [1, 2, 3] : Except Unit Buffer))
      (totalEncoder Unit (sampleEncoder 40000))
      (fun _ _ => .ok ⟨"https://res.cloudinary.com/demo/image/upload/a.jpg"⟩) sampleBody).2
      [1, 2, 3] (sampleEncoder 40000 [1, 2, 3] 10)
      ⟨"https://res.cloudinary.com/demo/image/upload/a.jpg"⟩ sampleBody_truthy rfl hc rfl).1⟩

/-- Claim C10 (acceptance threshold). The size in KB of line 39 is the byte length plus 512,
divided by 1024 and rounded down.  For a natural-number target `T`, the test of line 41
holds exactly when the length is at most 1024 * T + 511, that is below 1024 * T + 512; for
the target 250 exactly when it is at most 256511.  An iteration of the loop whose encoder
output is `c` returns `c` when that bound holds and otherwise goes on with quality - 10. -/
theorem size_test_threshold (T : Nat) (c : Buffer) :
    sizeKB c = ((c.length + 512) / 1024 : Nat) ∧
    (sizeKB c ≤ (T : Int) ↔ c.length ≤ 1024 * T + 511) ∧
    (sizeKB c ≤ (T : Int) ↔ c.length < 1024 * T + 512) ∧
    (sizeKB c ≤ 250 ↔ c.length ≤ 256511) ∧
    (∀ (ε : Type) (enc : Encoder ε) (buffer : Buffer) (q : Nat),
      10 < q → enc buffer q = .ok c →
      whileLoop enc buffer T q =
        if c.length ≤ 1024 * T + 511 then
          ([.encode buffer q, .log (.compressionSuccessful q (sizeKB c))], .returned c)
        else
          (.encode buffer q :: (whileLoop enc buffer T (q - 10)).1,
            (whileLoop enc buffer T (q - 10)).2)) := by
  have h1 : sizeKB c ≤ (T : Int) ↔ c.length ≤ 1024 * T + 511 := by
    rw [sizeKB_le_iff]
    omega
  refine ⟨sizeKB_eq c, h1, ?_, ?_, ?_⟩
  · rw [sizeKB_le_iff]
    omega
  · rw [sizeKB_le_iff]
    omega
  · intro ε enc buffer q hq he
    by_cases hc : sizeKB c ≤ (T : Int)
    · rw [whileLoop_accept enc buffer T q hq c he hc, if_pos (h1.1 hc)]
    · rw [whileLoop_reject enc buffer T q hq c he hc, if_neg (fun h => hc (h1.2 h))]

/-- Claim C10 at an encoder output of 256500 bytes: accepted for the target 250. -/
theorem size_test_threshold_witness :
    (10 < 90 ∧ totalEncoder Unit (sampleEncoder 2850) [] 90 = .ok (sampleEncoder 2850 [] 90)) ∧
    (sampleEncoder 2850 [] 90).length = 256500 ∧
    whileLoop (totalEncoder Unit (sampleEncoder 2850)) [] (250 : Nat) 90 =
      ([.encode [] 90, .log (.compressionSuccessful 90 (sizeKB (sampleEncoder 2850 [] 90)))],
        .returned (sampleEncoder 2850 [] 90)) := by
  have hlen : (sampleEncoder 2850 [] 90).length = 256500 := by
    simp only [sampleEncoder, List.length_replicate]
  have h := (size_test_threshold 250 (sampleEncoder 2850 [] 90)).2.2.2.2 Unit
    (totalEncoder Unit (sampleEncoder 2850)) [] 90 (by omega) rfl
  rw [if_pos (by rw [hlen]; norm_num)] at h
  exact ⟨⟨by omega, rfl⟩, hlen, h⟩

end Cloudinary
